import Mathlib

/-
Verification development for the page-cache and soft-navigation layer of the
MCDR MCP Service site, implemented in `src/assets/js/main.js`.

Modelling choices (shallow embedding):
  * `localStorage` is an association list `Store := List (String × String)`;
    `getItem` returns the first binding (`none` models `null`), `setItem`
    replaces an existing binding in place or appends a new one, `removeItem`
    drops every binding for the key.  `Object.keys` is the list of keys in
    store order.
  * JavaScript string operations (`startsWith`, `includes`,
    `replace(prefix, '')` on a string known to start with the prefix, and
    `parseInt`) are modelled over the character list of the string;
    `parseInt` returns `none` where the source would produce `NaN`.
  * Epoch-millisecond clock values are `Int` (JS numbers on this range are
    exact integers, and `now - writtenAt` is true integer subtraction).
  * The storage quota is modelled by a total-size cap: a `setItem` throws
    exactly when the updated store exceeds the cap.  This realises the only
    behaviour the source relies on: any individual `localStorage.setItem`
    call can throw, leaving the store as it was before that call.
  * `Array.prototype.sort` with the comparator
    `(a, b) => a.timestamp - b.timestamp` is a stable sort by timestamp; it
    is modelled with the (stable) insertion sort.  When `parseInt` returned
    `NaN` the comparator is inconsistent and ECMA-262 leaves the resulting
    order implementation-defined; the model fixes `none` (NaN) items first,
    and no theorem below depends on the order of such items.
-/

namespace MCDRCache

/-! ### JavaScript string primitives -/

/-- Model of `String.prototype.startsWith`. -/
def strStarts (s pre : String) : Bool := pre.data.isPrefixOf s.data

/-- Substring occurrence on character lists, used to model
`String.prototype.includes`. -/
def containsSub : List Char → List Char → Bool
  | [], sub => sub.isEmpty
  | c :: t, sub => sub.isPrefixOf (c :: t) || containsSub t sub

/-- Model of `String.prototype.includes`. -/
def strIncludes (s sub : String) : Bool := containsSub s.data sub.data

/-- Dropping the first `n` characters; models
`key.replace('mcdr_page_', '')` for keys that start with that 10-character
prefix (`replace` rewrites the first occurrence, which is then the prefix). -/
def strDrop (s : String) (n : Nat) : String := String.mk (s.data.drop n)

/-- Longest leading run of decimal digits. -/
def leadingDigits (cs : List Char) : List Char := cs.takeWhile (fun c => c.isDigit)

/-- Numeric value of a digit run. -/
def digitsVal (cs : List Char) : Nat := cs.foldl (fun n c => n * 10 + (c.toNat - 48)) 0

/-- Model of JavaScript `parseInt(s)` (radix 10): skip leading spaces, accept
an optional sign, read the longest digit run; `none` models `NaN`. -/
def parseIntJS (s : String) : Option Int :=
  match s.data.dropWhile (fun c => c = ' ') with
  | '-' :: rest =>
      if leadingDigits rest = [] then none else some (-(digitsVal (leadingDigits rest) : Int))
  | '+' :: rest =>
      if leadingDigits rest = [] then none else some ((digitsVal (leadingDigits rest) : Int))
  | cs =>
      if leadingDigits cs = [] then none else some ((digitsVal (leadingDigits cs) : Int))

/-! ### The `localStorage` model -/

/-- Model of `localStorage` as an association list in key order. -/
abbrev Store := List (String × String)

/-- Model of `localStorage.getItem`: first binding of the key, `none` for `null`. -/
def getItem : Store → String → Option String
  | [], _ => none
  | (k', v) :: t, k => if k' = k then some v else getItem t k

/-- Model of `localStorage.setItem`: replace the existing binding in place, or append. -/
def setItem : Store → String → String → Store
  | [], k, v => [(k, v)]
  | (k', v') :: t, k, v => if k' = k then (k, v) :: t else (k', v') :: setItem t k v

/-- Model of `localStorage.removeItem`. -/
def removeItem : Store → String → Store
  | [], _ => []
  | (k', v) :: t, k => if k' = k then removeItem t k else (k', v) :: removeItem t k

/-- Model of `Object.keys(localStorage)`. -/
def keys (s : Store) : List String := s.map (fun p => p.1)

theorem getItem_removeItem (s : Store) (k k' : String) :
    getItem (removeItem s k) k' = if k' = k then none else getItem s k' := by
  induction s with
  | nil => simp [removeItem, getItem]
  | cons p t ih =>
      obtain ⟨a, b⟩ := p
      simp only [removeItem, getItem]
      by_cases hak : a = k <;> by_cases hk : a = k' <;>
        simp_all [getItem]

theorem getItem_setItem (s : Store) (k v k' : String) :
    getItem (setItem s k v) k' = if k' = k then some v else getItem s k' := by
  induction s with
  | nil => simp [setItem, getItem, eq_comm]
  | cons p t ih =>
      obtain ⟨a, b⟩ := p
      simp only [setItem]
      by_cases hak : a = k <;> by_cases hk : a = k' <;>
        simp_all [getItem, eq_comm]

theorem getItem_eq_none_of_not_mem_keys (s : Store) (k : String) (h : k ∉ keys s) :
    getItem s k = none := by
  induction s with
  | nil => rfl
  | cons p t ih =>
      obtain ⟨a, b⟩ := p
      have h1 : ¬ a = k := by
        intro hh
        exact h (by simp [keys, hh])
      have h2 : k ∉ keys t := by
        intro hh
        apply h
        simp only [keys, List.map_cons, List.mem_cons]
        exact Or.inr (by simpa [keys] using hh)
      simp [getItem, h1, ih h2]

/-! ### Constants and key layout (`main.js` lines 7–17, 66–67, 90–91) -/

/-- The constant `CACHE_VERSION = '1.0.0'` (main.js line 7). -/
def CACHE_VERSION : String := "1.0.0"

/-- The constant page list `PAGES_TO_CACHE` (main.js lines 10–14). -/
def PAGES_TO_CACHE : List String := ["index.html", "install.html", "docs.html"]

/-- Key of the version marker, `'mcdr_cache_version'` (main.js lines 33, 38). -/
def versionKey : String := "mcdr_cache_version"

/-- Content key of a page: `` `mcdr_page_${pageUrl}` ``. -/
def contentKey (u : String) : String := "mcdr_page_" ++ u

/-- Timestamp key of a page: `` `mcdr_page_timestamp_${pageUrl}` ``. -/
def timestampKeyOf (u : String) : String := "mcdr_page_timestamp_" ++ u

/-! ### `clearAllCache` (main.js lines 175–182) -/

/-- Model of `clearAllCache()`: iterate over `Object.keys(localStorage)` and remove
every key starting with `'mcdr_page_'`. -/
def clearAllCache (s : Store) : Store :=
  (keys s).foldl
    (fun acc k => if strStarts k "mcdr_page_" then removeItem acc k else acc) s

theorem getItem_foldl_removeIf (p : String → Bool) (L : List String) (t : Store)
    (k : String) :
    getItem (L.foldl (fun acc k' => if p k' then removeItem acc k' else acc) t) k
      = if k ∈ L ∧ p k = true then none else getItem t k := by
  induction L generalizing t with
  | nil => simp
  | cons a L ih =>
      simp only [List.foldl_cons, ih]
      by_cases hpa : p a = true
      · rw [if_pos hpa, getItem_removeItem]
        by_cases hk : k ∈ L ∧ p k = true
        · rw [if_pos hk, if_pos ⟨List.mem_cons_of_mem a hk.1, hk.2⟩]
        · rw [if_neg hk]
          by_cases hka : k = a
          · subst hka
            rw [if_pos rfl, if_pos ⟨List.mem_cons_self k L, hpa⟩]
          · rw [if_neg hka, if_neg]
            intro hcon
            rcases List.mem_cons.mp hcon.1 with h1 | h1
            · exact hka h1
            · exact hk ⟨h1, hcon.2⟩
      · rw [if_neg hpa]
        by_cases hk : k ∈ L ∧ p k = true
        · rw [if_pos hk, if_pos ⟨List.mem_cons_of_mem a hk.1, hk.2⟩]
        · rw [if_neg hk, if_neg]
          intro hcon
          rcases List.mem_cons.mp hcon.1 with h1 | h1
          · subst h1; exact hpa hcon.2
          · exact hk ⟨h1, hcon.2⟩

theorem getItem_clearAllCache (s : Store) (k : String) :
    getItem (clearAllCache s) k
      = if strStarts k "mcdr_page_" = true then none else getItem s k := by
  unfold clearAllCache
  rw [getItem_foldl_removeIf]
  by_cases hp : strStarts k "mcdr_page_" = true
  · rw [if_pos hp]
    by_cases hm : k ∈ keys s
    · rw [if_pos ⟨hm, hp⟩]
    · rw [if_neg (fun hc => hm hc.1)]
      exact getItem_eq_none_of_not_mem_keys s k hm
  · rw [if_neg hp, if_neg (fun hc => hp hc.2)]

/-! ### `initCacheSystem` (main.js lines 31–43)

The version check runs synchronously inside the `DOMContentLoaded` handler,
strictly before `preloadPages()` is invoked (line 42) and before
`interceptNavLinks()` wires any click handler (line 25); `preloadPages`
itself only schedules delayed fetches and performs no store access at
scheduling time.  The store below is therefore exactly the store that every
later preload fetch and click handler observes at initialization time. -/

/-- The store transition of `initCacheSystem()`: purge and rewrite the marker
on a missing or different version marker, otherwise leave the store alone. -/
def initCacheSystem (s : Store) : Store :=
  if getItem s versionKey ≠ some CACHE_VERSION then
    setItem (clearAllCache s) versionKey CACHE_VERSION
  else s

/-! ### `preloadPages` (main.js lines 48–58) -/

/-- The pages for which `preloadPages()` schedules a delayed
`fetchAndCachePage` call: every configured page other than the current one. -/
def preloadTargets (currentPage : String) : List String :=
  PAGES_TO_CACHE.filter (fun page => page ≠ currentPage)

/-! ### `fetchAndCachePage`, synchronous phase (main.js lines 64–77) -/

/-- The guard of main.js line 71:
`cachedPage && cachedTimestamp && (now - parseInt(cachedTimestamp)) < 24*60*60*1000`.
Truthiness of the two stored strings is non-`null` and non-empty; a `NaN`
from `parseInt` makes the comparison false. -/
def freshCacheHit (s : Store) (page : String) (now : Int) : Bool :=
  match getItem s (contentKey page), getItem s (timestampKeyOf page) with
  | some c, some t =>
      decide (c ≠ "") && decide (t ≠ "") &&
        (match parseIntJS t with
         | some w => decide (now - w < 24 * 60 * 60 * 1000)
         | none => false)
  | _, _ => false

/-- The synchronous phase of `fetchAndCachePage(pageUrl)`: on a fresh cache
hit it returns at line 73 without touching the network; otherwise the
`fetch(pageUrl)` network request of line 77 is issued.  The returned flag
records whether a network request was issued; the store is unchanged in this
phase (writes happen in the response callback, modelled by
`cacheStoreStep`). -/
def fetchAndCachePage (s : Store) (page : String) (now : Int) : Store × Bool :=
  if freshCacheHit s page now then (s, false) else (s, true)

/-! ### `extractMainContent` (main.js lines 109–116) -/

/-- The function `extractMainContent(html)` parses `html` with a `DOMParser`, discards the
parsed document, and returns `html` unchanged (main.js line 115). -/
def extractMainContent (html : String) : String := html

/-! ### `clearOldCache` (main.js lines 187–217) -/

/-- The enumeration filter of main.js line 192:
`key.startsWith('mcdr_page_') && !key.includes('timestamp')`. -/
def isEnumContentKey (k : String) : Bool :=
  strStarts k "mcdr_page_" && !(strIncludes k "timestamp")

/-- The `cacheItems` array built on main.js lines 189–203: for every store
key passing `isEnumContentKey`, look up the companion timestamp key; if its
value is truthy (non-`null`, non-empty) push the pair of the page url
(`key.replace('mcdr_page_', '')`) and `parseInt` of the value (`none`
standing for `NaN`). -/
def collectFun (s : Store) (k : String) : Option (String × Option Int) :=
  if isEnumContentKey k then
    match getItem s (timestampKeyOf (strDrop k 10)) with
    | some v => if v ≠ "" then some (strDrop k 10, parseIntJS v) else none
    | none => none
  else none

/-- The `cacheItems` array of main.js lines 189–203, as the filter-map of
`collectFun` over the key snapshot. -/
def collectCacheItems (s : Store) : List (String × Option Int) :=
  (keys s).filterMap (collectFun s)

/-- Order used by `cacheItems.sort((a, b) => a.timestamp - b.timestamp)`
(main.js line 206).  On parsed (`some`) timestamps it is the numeric order;
a `none` (`NaN`) is placed first — the source's order for `NaN` comparator
results is implementation-defined and no theorem relies on this case. -/
def itemLE (a b : String × Option Int) : Prop :=
  match a.2, b.2 with
  | some x, some y => x ≤ y
  | none, _ => True
  | some _, none => False

instance : DecidableRel itemLE := fun a b => by
  unfold itemLE
  cases a.2 <;> cases b.2 <;> dsimp <;> infer_instance

instance : IsTotal (String × Option Int) itemLE :=
  ⟨by
    intro a b
    unfold itemLE
    rcases a with ⟨u, _ | x⟩ <;> rcases b with ⟨v, _ | y⟩ <;> simp
    exact Int.le_total x y⟩

instance : IsTrans (String × Option Int) itemLE :=
  ⟨by
    intro a b c hab hbc
    unfold itemLE at hab hbc ⊢
    rcases a with ⟨u, _ | x⟩ <;> rcases b with ⟨v, _ | y⟩ <;>
      rcases c with ⟨w, _ | z⟩ <;> simp_all
    exact le_trans hab hbc⟩

/-- The `cacheItems` array after the stable sort of main.js line 206 (JavaScript
`Array.prototype.sort` is stable; the stable insertion sort produces the
same list for the consistent comparator cases). -/
def sortedCacheItems (s : Store) : List (String × Option Int) :=
  (collectCacheItems s).insertionSort itemLE

/-- The count `itemsToRemove = Math.ceil(cacheItems.length / 2)`
(main.js line 209). -/
def evictCount (s : Store) : Nat := ((collectCacheItems s).length + 1) / 2

/-- The items visited by the removal loop of main.js lines 211–216:
the first `itemsToRemove` elements of the sorted array. -/
def chosenItems (s : Store) : List (String × Option Int) :=
  (sortedCacheItems s).take (evictCount s)

/-- The sorted items the removal loop does not reach. -/
def keptItems (s : Store) : List (String × Option Int) :=
  (sortedCacheItems s).drop (evictCount s)

/-- Model of `clearOldCache()`: remove, for each chosen item, its content key and its
timestamp key (main.js lines 213–214). -/
def clearOldCache (s : Store) : Store :=
  (chosenItems s).foldl
    (fun acc it => removeItem (removeItem acc (contentKey it.1)) (timestampKeyOf it.1)) s

/-! ### The storage step of `fetchAndCachePage` (main.js lines 88–101)

The quota is modelled by a cap on the total number of stored characters:
`localStorage.setItem` throws (leaving the store untouched) exactly when the
updated store would exceed the cap.  This is a model of the environment, not
of the source: the source only relies on each `setItem` being able to throw
without changing the store. -/

/-- Characters held by one binding. -/
def entrySize (p : String × String) : Nat := p.1.length + p.2.length

/-- Characters held by the whole store. -/
def storeSize (s : Store) : Nat := (s.map entrySize).sum

/-- Fallible `localStorage.setItem` under the quota cap; the `error` payload
is the store at the moment of the throw (unchanged by the failed call). -/
def setItemQ (cap : Nat) (s : Store) (k v : String) : Except Store Store :=
  if storeSize (setItem s k v) ≤ cap then Except.ok (setItem s k v) else Except.error s

/-- The `try` block of main.js lines 89–92: store the content, then the
timestamp.  An `error` result carries the store at the point the exception
was raised. -/
def tryCacheWrite (cap : Nat) (s : Store) (page content : String) (now : Int) :
    Except Store Store :=
  match setItemQ cap s (contentKey page) content with
  | Except.error e => Except.error e
  | Except.ok s1 => setItemQ cap s1 (timestampKeyOf page) (toString now)

/-- The full `try`/`catch` of main.js lines 88–97: on a quota failure the
`catch` block runs `clearOldCache()` on the store as left by the partial
write.  The outer `Except` is the routine's own exception channel (shown
below to never carry an error); the boolean records whether the eviction
pass ran. -/
def cacheStoreStep (cap : Nat) (s : Store) (page content : String) (now : Int) :
    Except String (Store × Bool) :=
  match tryCacheWrite cap s page content now with
  | Except.ok s2 => Except.ok (s2, false)
  | Except.error sAt => Except.ok (clearOldCache sAt, true)

/-! ### `interceptNavLinks` (main.js lines 121–170) -/

/-- A link element (`<a>`), as far as the wiring logic observes it: whether
it sits under a `<nav>` element (the `document.querySelectorAll('nav a')`
selector of line 123 only returns such links) and its `href` attribute
(`none` models a missing attribute). -/
structure NavLink where
  inNav : Bool
  href : Option String
deriving DecidableEq

/-- The wiring condition of main.js lines 123–128: the link was returned by
`querySelectorAll('nav a')` and `href && PAGES_TO_CACHE.includes(href)`. -/
def linkIntercepted (l : NavLink) : Bool :=
  l.inNav &&
    (match l.href with
     | some h => decide (h ≠ "") && PAGES_TO_CACHE.contains h
     | none => false)

/-- Observable effects of one run of the click handler of main.js
lines 129–157, in execution order: `preventDefault`, the
`history.replaceState({scrollY}, '')`, the
`history.pushState({fromCache: true}, '', href)`, the
`document.write` payload, and the page for which a refresh
`fetchAndCachePage` call is scheduled (line 154). -/
structure ClickOutcome where
  prevented : Bool
  replacedScroll : Option Int
  pushedState : Option (Bool × String)
  documentWritten : Option String
  refreshScheduledFor : Option String
deriving DecidableEq

/-- Outcome when the guard `if (cachedContent)` of line 134 fails: the
handler does nothing and the browser performs its default navigation. -/
def noNavAction : ClickOutcome :=
  { prevented := false, replacedScroll := none, pushedState := none,
    documentWritten := none, refreshScheduledFor := none }

/-- The click handler body (main.js lines 130–156) for a wired link with
attribute value `href`, given the store and the current `window.scrollY`. -/
def handleNavClick (s : Store) (href : String) (scrollY : Int) : ClickOutcome :=
  match getItem s (contentKey href) with
  | some c =>
      if c ≠ "" then
        { prevented := true, replacedScroll := some scrollY,
          pushedState := some (true, href), documentWritten := some c,
          refreshScheduledFor := some href }
      else noNavAction
  | none => noNavAction

/-- A history state object, carrying the fields the source ever stores:
`{scrollY}` from `replaceState` (line 139) or `{fromCache: true}` from
`pushState` (line 142). -/
structure HistoryState where
  scrollY : Option Int
  fromCache : Bool
deriving DecidableEq

/-- The `popstate` handler of main.js lines 162–169: under
`if (e.state && e.state.scrollY)` it schedules `window.scrollTo(0,
e.state.scrollY)`; the result is the scroll target, `none` when the handler
does nothing.  Truthiness of the number `e.state.scrollY` is being non-zero
(`0` is falsy). -/
def handlePopstate (st : Option HistoryState) : Option Int :=
  match st with
  | some h =>
      match h.scrollY with
      | some z => if z ≠ 0 then some z else none
      | none => none
  | none => none

/-! ### Helper lemmas -/

theorem data_append (a b : String) : (a ++ b).data = a.data ++ b.data := by
  cases a; cases b; rfl

theorem isPrefixOf_append_self (l r : List Char) : l.isPrefixOf (l ++ r) = true :=
  List.isPrefixOf_iff_prefix.mpr (List.prefix_append l r)

theorem strStarts_contentKey (u : String) :
    strStarts (contentKey u) "mcdr_page_" = true := by
  unfold strStarts contentKey
  rw [data_append]
  exact isPrefixOf_append_self _ _

theorem strStarts_timestampKeyOf (u : String) :
    strStarts (timestampKeyOf u) "mcdr_page_" = true := by
  unfold strStarts timestampKeyOf
  rw [data_append]
  have h : ("mcdr_page_timestamp_" : String).data
      = ("mcdr_page_" : String).data ++ ("timestamp_" : String).data := rfl
  rw [h, List.append_assoc]
  exact isPrefixOf_append_self _ _

theorem contentKey_ne_timestampKeyOf (u v : String) (hlen : u.length = v.length) :
    contentKey u ≠ timestampKeyOf v := by
  intro h
  have h2 := congrArg String.length h
  rw [contentKey, timestampKeyOf, String.length_append, String.length_append] at h2
  have e1 : ("mcdr_page_" : String).length = 10 := rfl
  have e2 : ("mcdr_page_timestamp_" : String).length = 20 := rfl
  omega

theorem getItem_foldl_removePairs (L : List (String × Option Int)) (t : Store)
    (k : String) :
    getItem (L.foldl
        (fun acc it => removeItem (removeItem acc (contentKey it.1)) (timestampKeyOf it.1)) t) k
      = if ∃ it ∈ L, k = contentKey it.1 ∨ k = timestampKeyOf it.1 then none
        else getItem t k := by
  induction L generalizing t with
  | nil => simp
  | cons a L ih =>
      simp only [List.foldl_cons, ih]
      by_cases hk : ∃ it ∈ L, k = contentKey it.1 ∨ k = timestampKeyOf it.1
      · rw [if_pos hk]
        rw [if_pos]
        exact ⟨hk.choose, List.mem_cons_of_mem a hk.choose_spec.1, hk.choose_spec.2⟩
      · rw [if_neg hk, getItem_removeItem, getItem_removeItem]
        by_cases h1 : k = timestampKeyOf a.1
        · rw [if_pos h1, if_pos ⟨a, List.mem_cons_self a L, Or.inr h1⟩]
        · rw [if_neg h1]
          by_cases h2 : k = contentKey a.1
          · rw [if_pos h2, if_pos ⟨a, List.mem_cons_self a L, Or.inl h2⟩]
          · rw [if_neg h2, if_neg]
            intro hcon
            obtain ⟨it, hmem, hor⟩ := hcon
            rcases List.mem_cons.mp hmem with hh | hh
            · subst hh
              rcases hor with hor | hor
              · exact h2 hor
              · exact h1 hor
            · exact hk ⟨it, hh, hor⟩

theorem getItem_clearOldCache (s : Store) (k : String) :
    getItem (clearOldCache s) k
      = if ∃ it ∈ chosenItems s, k = contentKey it.1 ∨ k = timestampKeyOf it.1 then none
        else getItem s k :=
  getItem_foldl_removePairs (chosenItems s) s k

theorem clearOldCache_lookup_mono (s : Store) (k : String) (v : String)
    (h : getItem (clearOldCache s) k = some v) : getItem s k = some v := by
  rw [getItem_clearOldCache] at h
  by_cases hc : ∃ it ∈ chosenItems s, k = contentKey it.1 ∨ k = timestampKeyOf it.1
  · rw [if_pos hc] at h; cases h
  · rwa [if_neg hc] at h

theorem setItemQ_eq_ok {cap : Nat} {s : Store} {k v : String} {s' : Store}
    (h : setItemQ cap s k v = Except.ok s') : s' = setItem s k v := by
  unfold setItemQ at h
  split at h <;> simp_all

theorem setItemQ_eq_error {cap : Nat} {s : Store} {k v : String} {e : Store}
    (h : setItemQ cap s k v = Except.error e) : e = s := by
  unfold setItemQ at h
  split at h <;> simp_all

theorem tryCacheWrite_eq_ok {cap : Nat} {s : Store} {p c : String} {now : Int}
    {s2 : Store} (h : tryCacheWrite cap s p c now = Except.ok s2) :
    s2 = setItem (setItem s (contentKey p) c) (timestampKeyOf p) (toString now) := by
  unfold tryCacheWrite at h
  cases h1 : setItemQ cap s (contentKey p) c with
  | error e => rw [h1] at h; cases h
  | ok s1 =>
      rw [h1] at h
      rw [setItemQ_eq_ok h1] at h
      exact setItemQ_eq_ok h

theorem tryCacheWrite_eq_error {cap : Nat} {s : Store} {p c : String} {now : Int}
    {e : Store} (h : tryCacheWrite cap s p c now = Except.error e) :
    e = s ∨ e = setItem s (contentKey p) c := by
  unfold tryCacheWrite at h
  cases h1 : setItemQ cap s (contentKey p) c with
  | error e' =>
      rw [h1] at h
      cases h
      exact Or.inl (setItemQ_eq_error h1)
  | ok s1 =>
      rw [h1] at h
      rw [setItemQ_eq_ok h1] at h
      exact Or.inr (setItemQ_eq_error h)

theorem parseIntJS_empty : parseIntJS "" = none := rfl

theorem freshCacheHit_true (s : Store) (page : String) (now : Int) (c t : String)
    (w : Int) (hc : getItem s (contentKey page) = some c) (hcne : c ≠ "")
    (ht : getItem s (timestampKeyOf page) = some t) (hw : parseIntJS t = some w)
    (hfresh : now - w < 24 * 60 * 60 * 1000) :
    freshCacheHit s page now = true := by
  have htne : t ≠ "" := by
    intro hemp
    rw [hemp, parseIntJS_empty] at hw
    cases hw
  unfold freshCacheHit
  rw [hc, ht]
  simp [hw, hcne, htne]
  omega

/-! ### Claim theorems -/

/-- C1 (amended): on every cache-hit click the handler schedules the refresh
call unconditionally, but the refresh runs the same `fetchAndCachePage`
routine as the preloader, whose freshness check applies: when the stored
entry for the target page is fresh (`now - writtenAt < 24h`), the scheduled
refresh issues no network request. -/
theorem navClick_refresh_uses_freshness_check (s : Store) (href : String)
    (sy : Int) (c : String) (hc : getItem s (contentKey href) = some c)
    (hne : c ≠ "") :
    (handleNavClick s href sy).refreshScheduledFor = some href
    ∧ (∀ now t w, getItem s (timestampKeyOf href) = some t →
        parseIntJS t = some w → now - w < 24 * 60 * 60 * 1000 →
        fetchAndCachePage s href now = (s, false)) := by
  constructor
  · unfold handleNavClick
    rw [hc]
    simp [hne]
  · intro now t w ht hw hfresh
    unfold fetchAndCachePage
    rw [if_pos (freshCacheHit_true s href now c t w hc hne ht hw hfresh)]

/-- C1 witness: a concrete cache-hit click whose scheduled refresh performs
no network request because the stored entry is fresh. -/
theorem navClick_refresh_uses_freshness_check_witness :
    (handleNavClick [(contentKey "docs.html", "<html>x"),
        (timestampKeyOf "docs.html", "100")] "docs.html" 0).refreshScheduledFor
      = some "docs.html"
    ∧ fetchAndCachePage [(contentKey "docs.html", "<html>x"),
        (timestampKeyOf "docs.html", "100")] "docs.html" 200
      = ([(contentKey "docs.html", "<html>x"),
          (timestampKeyOf "docs.html", "100")], false) := by
  have h := navClick_refresh_uses_freshness_check
    [(contentKey "docs.html", "<html>x"), (timestampKeyOf "docs.html", "100")]
    "docs.html" 0 "<html>x" (by decide) (by decide)
  exact ⟨h.1, h.2 200 "100" 100 (by decide) (by decide) (by decide)⟩

/-- C1 counterexample: the claim as stated requires the refresh network
request to be issued even when the stored entry is fresh.  Here the click is
a cache hit (so the refresh call is scheduled), the stored entry is fresh
(`200 - 100 < 24h`), and the refresh `fetchAndCachePage` run issues no
network request (flag `false`), refuting the claim. -/
theorem navClick_refresh_skips_fresh_refetch_cex :
    (handleNavClick [(contentKey "docs.html", "<html>x"),
        (timestampKeyOf "docs.html", "100")] "docs.html" 0).refreshScheduledFor
      = some "docs.html"
    ∧ ((200 : Int) - 100 < 24 * 60 * 60 * 1000)
    ∧ fetchAndCachePage [(contentKey "docs.html", "<html>x"),
        (timestampKeyOf "docs.html", "100")] "docs.html" 200
      = ([(contentKey "docs.html", "<html>x"),
          (timestampKeyOf "docs.html", "100")], false) := by
  refine ⟨by decide, by decide, by decide⟩

/-- C2: on initialization, a missing or different stored version marker
causes every `mcdr_page_`-prefixed key (content and timestamp keys alike) to
be removed and the marker to be set to the compiled-in constant; a matching
marker leaves the store unchanged.  The version check runs before
`preloadPages()` and `interceptNavLinks()` (main.js lines 36–42, 20–26). -/
theorem initCacheSystem_version_purge (s : Store) :
    (getItem s versionKey ≠ some CACHE_VERSION →
       (∀ k, strStarts k "mcdr_page_" = true → getItem (initCacheSystem s) k = none)
       ∧ getItem (initCacheSystem s) versionKey = some CACHE_VERSION)
    ∧ (getItem s versionKey = some CACHE_VERSION → initCacheSystem s = s) := by
  constructor
  · intro hne
    unfold initCacheSystem
    rw [if_pos hne]
    constructor
    · intro k hk
      have hkv : k ≠ versionKey := by
        intro h
        subst h
        have hfalse : strStarts versionKey "mcdr_page_" = false := by decide
        rw [hk] at hfalse
        cases hfalse
      rw [getItem_setItem, if_neg hkv, getItem_clearAllCache, if_pos hk]
    · rw [getItem_setItem, if_pos rfl]
  · intro he
    unfold initCacheSystem
    rw [if_neg (fun hc => hc he)]

/-- C2 witness: a store whose marker reads `"0.9"` is purged of its content
key and carries the new marker afterwards. -/
theorem initCacheSystem_version_purge_witness :
    getItem (initCacheSystem [(versionKey, "0.9"), (contentKey "docs.html", "D")])
        (contentKey "docs.html") = none
    ∧ getItem (initCacheSystem [(versionKey, "0.9"), (contentKey "docs.html", "D")])
        versionKey = some CACHE_VERSION := by
  have h := (initCacheSystem_version_purge
      [(versionKey, "0.9"), (contentKey "docs.html", "D")]).1 (by decide)
  exact ⟨h.1 (contentKey "docs.html") (by decide), h.2⟩

/-- C4 (amended): a click on an intercepted link whose target page has a
non-empty content entry suppresses the default navigation, replaces the
current history entry with `{scrollY}`, pushes a `{fromCache: true}` entry
for the target URL, and writes the cached HTML over the whole document (the
guard `if (cachedContent)` of main.js line 134 is a truthiness test, so an
empty stored string is not served). -/
theorem navClick_hit_swaps_document (s : Store) (href : String) (sy : Int)
    (c : String) (hc : getItem s (contentKey href) = some c) (hne : c ≠ "") :
    handleNavClick s href sy =
      { prevented := true, replacedScroll := some sy,
        pushedState := some (true, href), documentWritten := some c,
        refreshScheduledFor := some href } := by
  unfold handleNavClick
  rw [hc]
  simp [hne]

/-- C4 witness: a concrete hit with non-empty content. -/
theorem navClick_hit_swaps_document_witness :
    handleNavClick [(contentKey "docs.html", "<p>d</p>")] "docs.html" 33 =
      { prevented := true, replacedScroll := some 33,
        pushedState := some (true, "docs.html"),
        documentWritten := some "<p>d</p>",
        refreshScheduledFor := some "docs.html" } :=
  navClick_hit_swaps_document [(contentKey "docs.html", "<p>d</p>")] "docs.html"
    33 "<p>d</p>" (by decide) (by decide)

/-- C4 counterexample: the store has a content entry for the target page
(the empty string), yet the handler performs no action at all — in
particular it does not suppress the default navigation — because the guard
of main.js line 134 tests truthiness, not presence. -/
theorem navClick_empty_content_cex :
    getItem [(contentKey "install.html", "")] (contentKey "install.html") = some ""
    ∧ handleNavClick [(contentKey "install.html", "")] "install.html" 7
        = noNavAction := by
  refine ⟨by decide, by decide⟩

/-- C5 (amended): when the store holds a non-empty content entry and a
timestamp entry parsing to `w` with `now - w < 24h` for page `P`, the fetch
routine issues no network request for `P` and leaves the store unchanged
(the guard of main.js line 71 tests truthiness of the stored content, so an
empty content string does not suppress the fetch). -/
theorem fetch_fresh_skip (s : Store) (page : String) (now : Int) (c t : String)
    (w : Int) (hc : getItem s (contentKey page) = some c) (hcne : c ≠ "")
    (ht : getItem s (timestampKeyOf page) = some t) (hw : parseIntJS t = some w)
    (hfresh : now - w < 24 * 60 * 60 * 1000) :
    fetchAndCachePage s page now = (s, false) := by
  unfold fetchAndCachePage
  rw [if_pos (freshCacheHit_true s page now c t w hc hcne ht hw hfresh)]

/-- C5 witness: a fresh, non-empty entry is served without a network
request. -/
theorem fetch_fresh_skip_witness :
    fetchAndCachePage [(contentKey "install.html", "<html>i"),
        (timestampKeyOf "install.html", "500")] "install.html" 600
      = ([(contentKey "install.html", "<html>i"),
          (timestampKeyOf "install.html", "500")], false) :=
  fetch_fresh_skip [(contentKey "install.html", "<html>i"),
      (timestampKeyOf "install.html", "500")] "install.html" 600 "<html>i" "500"
    500 (by decide) (by decide) (by decide) (by decide) (by decide)

/-- C5 counterexample: both entries exist for the page and the timestamp is
fresh (`200 - 100 < 24h`), yet a network request is issued (flag `true`)
because the stored content is the empty string and the truthiness guard of
main.js line 71 fails. -/
theorem fetch_fresh_empty_content_cex :
    getItem [(contentKey "docs.html", ""), (timestampKeyOf "docs.html", "100")]
        (contentKey "docs.html") = some ""
    ∧ getItem [(contentKey "docs.html", ""), (timestampKeyOf "docs.html", "100")]
        (timestampKeyOf "docs.html") = some "100"
    ∧ parseIntJS "100" = some 100
    ∧ ((200 : Int) - 100 < 24 * 60 * 60 * 1000)
    ∧ fetchAndCachePage [(contentKey "docs.html", ""),
        (timestampKeyOf "docs.html", "100")] "docs.html" 200
      = ([(contentKey "docs.html", ""), (timestampKeyOf "docs.html", "100")], true) := by
  refine ⟨by decide, by decide, by decide, by decide, by decide⟩

/-- C7 (amended): exactly the link elements sitting under a `<nav>` element
whose `href` attribute exactly matches one of the configured page
identifiers are intercepted; links outside `<nav>` (the
`document.querySelectorAll('nav a')` selector of main.js line 123 never
returns them) and links whose `href` is not an exact match fall through to
normal navigation. -/
theorem nav_link_wiring (l : NavLink) :
    linkIntercepted l = true ↔
      (l.inNav = true ∧ ∃ h, l.href = some h ∧ h ∈ PAGES_TO_CACHE) := by
  rcases l with ⟨nav, _ | h⟩
  · simp [linkIntercepted]
  · by_cases hmem : h ∈ PAGES_TO_CACHE
    · have hne : h ≠ "" := by
        have hall : ∀ x ∈ PAGES_TO_CACHE, x ≠ "" := by decide
        exact hall h hmem
      simp [linkIntercepted, hmem, hne]
    · simp [linkIntercepted, hmem]

/-- C7 counterexample: a link element outside any `<nav>` whose `href`
exactly matches the configured page identifier `"docs.html"` is not
intercepted, refuting the claim that every matching link element in the
document gets the handler. -/
theorem non_nav_link_not_wired_cex :
    "docs.html" ∈ PAGES_TO_CACHE
    ∧ linkIntercepted { inNav := false, href := some "docs.html" } = false := by
  refine ⟨by decide, by decide⟩

/-- C10: the `popstate` handler restores a scroll offset exactly when the
event state exists and its `scrollY` is truthy (non-zero); a recorded offset
of `0` is treated as absent, and when no restore happens the handler does
nothing at all. -/
theorem popstate_scroll_restore :
    (∀ st z, handlePopstate st = some z
        ↔ ∃ h, st = some h ∧ h.scrollY = some z ∧ z ≠ 0)
    ∧ (∀ b, handlePopstate (some { scrollY := some 0, fromCache := b }) = none) := by
  constructor
  · intro st z
    rcases st with _ | ⟨sy, fc⟩
    · simp [handlePopstate]
    · rcases sy with _ | y
      · simp [handlePopstate]
      · by_cases hy : y = 0
        · subst hy
          simp [handlePopstate]
          intros
          omega
        · constructor
          · intro h
            refine ⟨⟨some y, fc⟩, rfl, ?_, ?_⟩
            · simp [handlePopstate, hy] at h
              simp [h]
            · simp [handlePopstate, hy] at h
              omega
          · rintro ⟨hst, heq, hsy, hz⟩
            simp at heq
            rw [← heq] at hsy
            simp at hsy
            simp [handlePopstate, hsy, hz]
  · intro b
    simp [handlePopstate]

/-- C6 (amended): a fully successful write persists the content and its
timestamp together; the purge and the eviction pass remove a page's content
key and timestamp key together; however, the two `setItem` calls of main.js
lines 90–91 are separate, so a quota failure on the timestamp write can
leave the just-written content persisted without its timestamp (the only
store states reachable at the moment of a quota throw are the pre-write
store and the store with the content alone written). -/
theorem cache_pairing_discipline :
    (∀ cap (s : Store) p c now s2, tryCacheWrite cap s p c now = Except.ok s2 →
        getItem s2 (contentKey p) = some c
        ∧ getItem s2 (timestampKeyOf p) = some (toString now))
    ∧ (∀ (s : Store) u, getItem (clearAllCache s) (contentKey u) = none
        ∧ getItem (clearAllCache s) (timestampKeyOf u) = none)
    ∧ (∀ (s : Store), ∀ it ∈ chosenItems s,
        getItem (clearOldCache s) (contentKey it.1) = none
        ∧ getItem (clearOldCache s) (timestampKeyOf it.1) = none)
    ∧ (∀ cap (s : Store) p c now e, tryCacheWrite cap s p c now = Except.error e →
        e = s ∨ e = setItem s (contentKey p) c) := by
  refine ⟨?_, ?_, ?_, ?_⟩
  · intro cap s p c now s2 h
    rw [tryCacheWrite_eq_ok h]
    constructor
    · rw [getItem_setItem, if_neg (contentKey_ne_timestampKeyOf p p rfl),
        getItem_setItem, if_pos rfl]
    · rw [getItem_setItem, if_pos rfl]
  · intro s u
    constructor
    · rw [getItem_clearAllCache, if_pos (strStarts_contentKey u)]
    · rw [getItem_clearAllCache, if_pos (strStarts_timestampKeyOf u)]
  · intro s it hmem
    constructor
    · rw [getItem_clearOldCache, if_pos ⟨it, hmem, Or.inl rfl⟩]
    · rw [getItem_clearOldCache, if_pos ⟨it, hmem, Or.inr rfl⟩]
  · intro cap s p c now e h
    exact tryCacheWrite_eq_error h

/-- C6 witness: a concrete successful write persists both fields. -/
theorem cache_pairing_discipline_witness :
    getItem [(contentKey "a", "x"), (timestampKeyOf "a", "5")] (contentKey "a")
        = some "x"
    ∧ getItem [(contentKey "a", "x"), (timestampKeyOf "a", "5")]
        (timestampKeyOf "a") = some (toString (5 : Int)) := by
  have h := cache_pairing_discipline.1 1000 [] "a" "x" 5
    [(contentKey "a", "x"), (timestampKeyOf "a", "5")] rfl
  exact h

/-- C6 counterexample: with an 20-character quota, the content write of
main.js line 90 succeeds and the timestamp write of line 91 throws; the
catch block's eviction pass finds no timestamped entry and removes nothing,
so the routine ends with the page's content persisted and no timestamp —
content and timestamp were updated independently, refuting the claim. -/
theorem content_without_timestamp_cex :
    cacheStoreStep 20 [] "a" "x" 5 = Except.ok ([("mcdr_page_a", "x")], true)
    ∧ getItem [(("mcdr_page_a" : String), "x")] (contentKey "a") = some "x"
    ∧ getItem [(("mcdr_page_a" : String), "x")] (timestampKeyOf "a") = none := by
  refine ⟨rfl, by decide, by decide⟩

/-- C8: the storage step never lets an exception escape (its result is
always `ok`); when the quota rejects the write, the recovery action is
exactly one `clearOldCache` pass over the store as the failed write left it
(which is the pre-write store or the store with only the content written),
and the rejected timestamp write is not retried: the new timestamp value
can appear in the resulting store only if it was already stored before. -/
theorem quota_failure_recovery (cap : Nat) (s : Store) (p c : String) (now : Int)
    (e : Store) (hfail : tryCacheWrite cap s p c now = Except.error e) :
    (∃ r, cacheStoreStep cap s p c now = Except.ok r)
    ∧ cacheStoreStep cap s p c now = Except.ok (clearOldCache e, true)
    ∧ (e = s ∨ e = setItem s (contentKey p) c)
    ∧ (getItem (clearOldCache e) (timestampKeyOf p) = some (toString now) →
        getItem s (timestampKeyOf p) = some (toString now)) := by
  have hstep : cacheStoreStep cap s p c now = Except.ok (clearOldCache e, true) := by
    unfold cacheStoreStep
    rw [hfail]
  refine ⟨⟨(clearOldCache e, true), hstep⟩, hstep, tryCacheWrite_eq_error hfail, ?_⟩
  intro hts
  have he := clearOldCache_lookup_mono e (timestampKeyOf p) (toString now) hts
  rcases tryCacheWrite_eq_error hfail with h | h
  · rwa [h] at he
  · rw [h, getItem_setItem,
      if_neg (fun hc => contentKey_ne_timestampKeyOf p p rfl hc.symm)] at he
    exact he

/-- C8 witness: a zero quota rejects the very first write; the routine still
returns normally and runs one eviction pass over the unchanged store. -/
theorem quota_failure_recovery_witness :
    cacheStoreStep 0 [] "a" "x" 5 = Except.ok (clearOldCache [], true) :=
  (quota_failure_recovery 0 [] "a" "x" 5 [] rfl).2.1

/-- C9: the content-extraction step is the identity on the HTML text, and a
successful storage step stores the full response body verbatim under the
content key and the captured `now` (stringified) under the timestamp key. -/
theorem success_write_verbatim :
    (∀ h, extractMainContent h = h)
    ∧ (∀ cap (s : Store) p body now s2,
        cacheStoreStep cap s p (extractMainContent body) now
            = Except.ok (s2, false) →
        getItem s2 (contentKey p) = some body
        ∧ getItem s2 (timestampKeyOf p) = some (toString now)) := by
  constructor
  · intro h
    rfl
  · intro cap s p body now s2 h
    have htry : tryCacheWrite cap s p (extractMainContent body) now = Except.ok s2 := by
      unfold cacheStoreStep at h
      cases h1 : tryCacheWrite cap s p (extractMainContent body) now with
      | error e =>
          rw [h1] at h
          cases h
      | ok s2' =>
          rw [h1] at h
          cases h
          rfl
    rw [tryCacheWrite_eq_ok htry]
    constructor
    · rw [getItem_setItem, if_neg (contentKey_ne_timestampKeyOf p p rfl),
        getItem_setItem, if_pos rfl]
      rfl
    · rw [getItem_setItem, if_pos rfl]

/-- C9 witness: a concrete successful fetch-and-store run writes the body
verbatim with the captured timestamp. -/
theorem success_write_verbatim_witness :
    getItem [(contentKey "p", "<html>"), (timestampKeyOf "p", "7")] (contentKey "p")
        = some "<html>"
    ∧ getItem [(contentKey "p", "<html>"), (timestampKeyOf "p", "7")]
        (timestampKeyOf "p") = some (toString (7 : Int)) :=
  success_write_verbatim.2 1000 [] "p" "<html>" 7
    [(contentKey "p", "<html>"), (timestampKeyOf "p", "7")] rfl

/-! ### Machinery for the eviction theorem -/

theorem strStarts_data_eq (s pre : String) (h : strStarts s pre = true) :
    s.data = pre.data ++ s.data.drop pre.data.length := by
  unfold strStarts at h
  have hp := List.isPrefixOf_iff_prefix.mp h
  exact (List.prefix_iff_eq_append.mp hp).symm

theorem enumKey_inj (k1 k2 : String)
    (h1 : strStarts k1 "mcdr_page_" = true) (h2 : strStarts k2 "mcdr_page_" = true)
    (hd : strDrop k1 10 = strDrop k2 10) : k1 = k2 := by
  apply String.ext
  have e1 := strStarts_data_eq k1 "mcdr_page_" h1
  have e2 := strStarts_data_eq k2 "mcdr_page_" h2
  have hlen : ("mcdr_page_" : String).data.length = 10 := rfl
  rw [hlen] at e1 e2
  have hdd : k1.data.drop 10 = k2.data.drop 10 := congrArg String.data hd
  rw [e1, e2, hdd]

theorem collectFun_eq_some {s : Store} {k : String} {it : String × Option Int}
    (h : collectFun s k = some it) :
    isEnumContentKey k = true ∧ it.1 = strDrop k 10 := by
  unfold collectFun at h
  by_cases he : isEnumContentKey k = true
  · rw [if_pos he] at h
    refine ⟨he, ?_⟩
    revert h
    cases getItem s (timestampKeyOf (strDrop k 10)) with
    | none =>
        intro h
        cases h
    | some v =>
        intro h
        change (if v ≠ "" then some (strDrop k 10, parseIntJS v) else none) = some it at h
        by_cases hv : v ≠ ""
        · rw [if_pos hv] at h
          cases h
          rfl
        · rw [if_neg hv] at h
          cases h
  · rw [if_neg he] at h
    cases h

theorem nodup_collect_fst (s : Store) (h : (keys s).Nodup) :
    ((collectCacheItems s).map (fun it => it.1)).Nodup := by
  unfold collectCacheItems
  rw [List.map_filterMap]
  refine List.Nodup.filterMap ?_ h
  intro a a' b hb hb'
  cases hfa : collectFun s a with
  | none => rw [hfa] at hb; simp at hb
  | some it =>
      cases hfa' : collectFun s a' with
      | none => rw [hfa'] at hb'; simp at hb'
      | some it' =>
          rw [hfa] at hb
          rw [hfa'] at hb'
          simp at hb hb'
          obtain ⟨he, hd⟩ := collectFun_eq_some hfa
          obtain ⟨he', hd'⟩ := collectFun_eq_some hfa'
          have hs : strStarts a "mcdr_page_" = true := by
            simp only [isEnumContentKey, Bool.and_eq_true] at he
            exact he.1
          have hs' : strStarts a' "mcdr_page_" = true := by
            simp only [isEnumContentKey, Bool.and_eq_true] at he'
            exact he'.1
          refine enumKey_inj a a' hs hs' ?_
          rw [← hd, ← hd', hb, hb']

theorem chosen_subset_items (s : Store) :
    ∀ it ∈ chosenItems s, it ∈ collectCacheItems s := fun it h =>
  (List.perm_insertionSort itemLE (collectCacheItems s)).subset
    (List.take_subset (evictCount s) (sortedCacheItems s) h)

theorem kept_subset_items (s : Store) :
    ∀ it ∈ keptItems s, it ∈ collectCacheItems s := fun it h =>
  (List.perm_insertionSort itemLE (collectCacheItems s)).subset
    (List.drop_subset (evictCount s) (sortedCacheItems s) h)

theorem chosen_le_kept (s : Store) :
    ∀ a ∈ chosenItems s, ∀ b ∈ keptItems s, itemLE a b := by
  have hsorted : List.Sorted itemLE (sortedCacheItems s) :=
    List.sorted_insertionSort itemLE (collectCacheItems s)
  have hpw : List.Pairwise itemLE (chosenItems s ++ keptItems s) := by
    unfold chosenItems keptItems
    rw [List.take_append_drop]
    exact hsorted
  exact (List.pairwise_append.mp hpw).2.2

theorem chosen_length (s : Store) : (chosenItems s).length = evictCount s := by
  unfold chosenItems evictCount sortedCacheItems
  rw [List.length_take, List.length_insertionSort]
  omega

/-- C3 (amended): one eviction pass over a store with pairwise-distinct keys
whose truthy timestamp values all parse removes exactly
`ceil(N/2)` of the `N` enumerated entries — an entry being enumerated when
its content key starts with `mcdr_page_` without containing `'timestamp'`
and its timestamp value is truthy (main.js lines 191–202) — namely the
entries that come first in the stable sort by `writtenAt`; each removal
deletes both the entry's content key and its timestamp key, every key other
than those of the chosen entries is left untouched (so entries lacking a
truthy timestamp are not removed), and when no entry is enumerated the
store is unchanged. -/
theorem clearOldCache_evicts_oldest_half (s : Store)
    (hnd : (keys s).Nodup)
    (hp : ∀ it ∈ collectCacheItems s, (it.2).isSome = true) :
    (chosenItems s).length = evictCount s
    ∧ ((chosenItems s).map (fun it => it.1)).Nodup
    ∧ (∀ it ∈ chosenItems s,
        getItem (clearOldCache s) (contentKey it.1) = none
        ∧ getItem (clearOldCache s) (timestampKeyOf it.1) = none)
    ∧ (∀ k, (∀ it ∈ chosenItems s, k ≠ contentKey it.1 ∧ k ≠ timestampKeyOf it.1) →
        getItem (clearOldCache s) k = getItem s k)
    ∧ (∀ a ∈ chosenItems s, ∀ b ∈ keptItems s, ∀ x y,
        a.2 = some x → b.2 = some y → x ≤ y)
    ∧ (collectCacheItems s = [] → clearOldCache s = s) := by
  refine ⟨chosen_length s, ?_, ?_, ?_, ?_, ?_⟩
  · have hsortnd : ((sortedCacheItems s).map (fun it => it.1)).Nodup :=
      (((List.perm_insertionSort itemLE (collectCacheItems s)).map
          (fun it => it.1)).symm).nodup (nodup_collect_fst s hnd)
    exact List.Nodup.sublist
      (List.Sublist.map (fun it => it.1)
        (List.take_sublist (evictCount s) (sortedCacheItems s))) hsortnd
  · intro it hmem
    constructor
    · rw [getItem_clearOldCache, if_pos ⟨it, hmem, Or.inl rfl⟩]
    · rw [getItem_clearOldCache, if_pos ⟨it, hmem, Or.inr rfl⟩]
  · intro k hk
    rw [getItem_clearOldCache, if_neg]
    intro hcon
    obtain ⟨it, hmem, hor⟩ := hcon
    rcases hor with hor | hor
    · exact (hk it hmem).1 hor
    · exact (hk it hmem).2 hor
  · intro a ha b hb x y hx hy
    have hle := chosen_le_kept s a ha b hb
    unfold itemLE at hle
    rw [hx, hy] at hle
    exact hle
  · intro h
    unfold clearOldCache chosenItems sortedCacheItems evictCount
    rw [h]
    rfl

/-- C3 witness: in a store holding pages `a` (written at 1) and `b`
(written at 2), the pass removes exactly one entry — page `a`, the
older — deleting both its keys and keeping page `b` intact. -/
theorem clearOldCache_evicts_oldest_half_witness :
    getItem (clearOldCache [(contentKey "a", "A"), (timestampKeyOf "a", "1"),
        (contentKey "b", "B"), (timestampKeyOf "b", "2")]) (contentKey "a") = none
    ∧ getItem (clearOldCache [(contentKey "a", "A"), (timestampKeyOf "a", "1"),
        (contentKey "b", "B"), (timestampKeyOf "b", "2")]) (timestampKeyOf "a") = none
    ∧ getItem (clearOldCache [(contentKey "a", "A"), (timestampKeyOf "a", "1"),
        (contentKey "b", "B"), (timestampKeyOf "b", "2")]) (contentKey "b")
      = some "B" := by
  have h := clearOldCache_evicts_oldest_half
    [(contentKey "a", "A"), (timestampKeyOf "a", "1"),
     (contentKey "b", "B"), (timestampKeyOf "b", "2")] (by decide) (by decide)
  have h3 := h.2.2.1 ("a", some 1) (by decide)
  have h4 := h.2.2.2.1 (contentKey "b") (by decide)
  exact ⟨h3.1, h3.2, by rw [h4]; decide⟩

/-- C3 counterexample: the store holds exactly one entry (page
`"atimestampb"`) with a parsable timestamp, so the claim demands that one
eviction pass remove `ceil(1 / 2) = 1` entry — this one, having the
smallest `writtenAt`.  But the enumeration filter of main.js line 192
(`!key.includes('timestamp')`) skips its content key because the page name
contains `'timestamp'`, and the pass removes nothing: the store is returned
unchanged, refuting the claim. -/
theorem clearOldCache_timestamp_substring_cex :
    getItem [(contentKey "atimestampb", "X"), (timestampKeyOf "atimestampb", "5")]
        (contentKey "atimestampb") = some "X"
    ∧ getItem [(contentKey "atimestampb", "X"), (timestampKeyOf "atimestampb", "5")]
        (timestampKeyOf "atimestampb") = some "5"
    ∧ parseIntJS "5" = some 5
    ∧ clearOldCache [(contentKey "atimestampb", "X"),
        (timestampKeyOf "atimestampb", "5")]
      = [(contentKey "atimestampb", "X"), (timestampKeyOf "atimestampb", "5")] := by
  refine ⟨by decide, by decide, by decide, by decide⟩

end MCDRCache
